import Mathlib

/-!
Verification of the JSONL-to-CSV conversion utility `06-analyze-logs.py`.

The script reads `logs.jsonl` with `pd.read_json(file_name, lines=True)`,
derives the output path with `file_name.replace('.jsonl', '.csv')`, and
writes the frame with `df.to_csv(output_file, index=False)`.

The development below shallowly embeds that pipeline:

* `nonBlankLines` models the reader's line combining: each line is
  stripped and whitespace-only lines are skipped before parsing.
* `Json` and the line parser model the JSON-Lines reader, with the
  strict JSON grammar: integer literals parse to exact integers in the
  reader's 64-bit range, fractional and exponent literals to
  double-precision values, and strings take the single-character and
  `\u` escapes (surrogate pairs included).
* `F64` models binary64 exactly with big-integer arithmetic: decimal to
  binary conversion rounds to nearest with ties to even, and `f64Repr`
  prints the shortest round-trip decimal the way Python `str` does
  (positional below `10^16`, scientific beyond).
* `classify` / `renderCell` model the frame's column-dtype inference and
  the reader's default conversions: all-present booleans stay boolean;
  default-date-named columns of epoch numbers become timestamps; an
  all-present integer column stays exact int64; columns accepted by the
  `astype("float64")` coercion (numbers, booleans, numeric strings)
  become int64 when fully present and integral, else float64; anything
  else is held as Python objects and printed with Python `str`, with
  `repr` quoting and escaping of nested strings.
* `convertAxes` models the reader's default axis conversion of the
  column labels (all-numeric or epoch-like label sets are rewritten).
* `csvField` models the writer's minimal quoting (RFC-4180 style).
* `runScript` models the one file read and one file write of a run.

Out of model scope: the reader's lenient `NaN`/`Infinity` number
literals, date parsing of ISO-format strings, fractional epoch values in
date-named columns, non-ASCII digits in Python number strings, and
`repr` escaping of non-ASCII control characters.
-/

namespace AnalyzeLogs

/-- Named character constants used throughout the embedding. -/
def quoteChar : Char := Char.ofNat 34

/-- Backslash character. -/
def backslashChar : Char := Char.ofNat 92

/-- Line-feed character. -/
def lfChar : Char := Char.ofNat 10

/-- Carriage-return character. -/
def crChar : Char := Char.ofNat 13

/-- Horizontal-tab character. -/
def tabChar : Char := Char.ofNat 9

/-- Single-quote character, used by the Python `repr` of strings. -/
def squoteChar : Char := Char.ofNat 39

/-- Lowercase the ASCII letters of a character list. -/
def lowerAscii (l : List Char) : List Char :=
  l.map (fun c => if 65 ≤ c.toNat && c.toNat ≤ 90 then Char.ofNat (c.toNat + 32) else c)

/-! ### IEEE-754 binary64 values, modelled exactly

A finite double is `(-1)^sign * m * 2^e` with the canonical mantissa
range `2^52 ≤ m < 2^53` (or `e = -1074` for subnormals, and `m = 0, e = 0`
for zero).  All conversions below are exact big-integer arithmetic with
round-to-nearest, ties-to-even; no machine floating point is involved. -/

/-- A double-precision value: not-a-number, signed infinity, or a signed
finite value `m * 2^e`. -/
inductive F64 where
  | nan
  | inf (sign : Bool)
  | finite (sign : Bool) (m : Nat) (e : Int)
deriving DecidableEq

/-- Bit length of a natural number; the fuel bounds the iteration count
and the number itself always suffices. -/
def bitLenAux : Nat → Nat → Nat
  | 0, _ => 0
  | fuel + 1, n => if n = 0 then 0 else bitLenAux fuel (n / 2) + 1

/-- Bit length of a natural number. -/
def bitLen (n : Nat) : Nat := bitLenAux n n

/-- Decimal digit count; fuel as in `bitLen`. -/
def digitCountAux : Nat → Nat → Nat
  | 0, _ => 0
  | fuel + 1, n => if n = 0 then 0 else digitCountAux fuel (n / 10) + 1

/-- Decimal digit count of a natural number. -/
def digitCount (n : Nat) : Nat := digitCountAux n n

/-- Floor of `N / (M * base^p)` where a negative `p` multiplies instead. -/
def floorAt (N M base : Nat) (p : Int) : Nat :=
  if 0 ≤ p then N / (M * base ^ p.toNat)
  else (N * base ^ (-p).toNat) / M

/-- Round `N / (M * base^p)` to nearest, ties to even. -/
def roundAt (N M base : Nat) (p : Int) : Nat :=
  let num := if 0 ≤ p then N else N * base ^ (-p).toNat
  let den := if 0 ≤ p then M * base ^ p.toNat else M
  let q := num / den
  let r := num % den
  if den < 2 * r then q + 1
  else if 2 * r < den then q
  else if q % 2 = 0 then q else q + 1

/-- Walk the binary exponent until the scaled quotient lands in the
mantissa range `[2^52, 2^53)`, clamped at the subnormal floor. -/
def normExp : Nat → Nat → Nat → Int → Int
  | 0, _, _, e => e
  | fuel + 1, N, M, e =>
    if e ≤ -1074 then -1074
    else
      let q := floorAt N M 2 e
      if q < 2 ^ 52 then normExp fuel N M (e - 1)
      else if 2 ^ 53 ≤ q then normExp fuel N M (e + 1)
      else e

/-- Convert the exact decimal `(-1)^sign * D * 10^E` to the nearest
binary64 value (ties to even, overflow to infinity). -/
def dec2f64 (sign : Bool) (D : Nat) (E : Int) : F64 :=
  if D = 0 then F64.finite sign 0 0
  else
    let N := if 0 ≤ E then D * 10 ^ E.toNat else D
    let M := if 0 ≤ E then 1 else 10 ^ (-E).toNat
    let e0 : Int := (bitLen N : Int) - (bitLen M : Int) - 53
    let e := normExp 200 N M e0
    let m := roundAt N M 2 e
    let me := if m = 2 ^ 53 then (2 ^ 52, e + 1) else (m, e)
    if me.1 = 0 then F64.finite sign 0 0
    else if 971 < me.2 then F64.inf sign
    else F64.finite sign me.1 me.2

/-- Nearest binary64 value of an integer. -/
def intToF64 (n : Int) : F64 := dec2f64 (decide (n < 0)) n.natAbs 0

/-- Exact integer value of a finite double, when it is integral and in
the signed 64-bit range (the range `astype("int64")` accepts). -/
def f64AsInt (f : F64) : Option Int :=
  match f with
  | F64.finite sign m e =>
    let vOpt : Option Nat :=
      if 0 ≤ e then some (m * 2 ^ e.toNat)
      else if m % 2 ^ (-e).toNat = 0 then some (m / 2 ^ (-e).toNat) else none
    match vOpt with
    | some v => if v < 2 ^ 63 then some (if sign then -(v : Int) else (v : Int)) else none
    | none => none
  | _ => none

/-- Round `value * mult` of a finite double to the nearest integer;
`none` on nan or infinity. -/
def f64MulRound (f : F64) (mult : Nat) : Option Int :=
  match f with
  | F64.finite sign m e =>
    let v := roundAt (m * mult) 1 2 (-e)
    some (if sign then -(v : Int) else (v : Int))
  | _ => none

/-- Compare a nonnegative bound against a double: `c < value`. -/
def f64GtNat (f : F64) (c : Nat) : Bool :=
  match f with
  | F64.nan => false
  | F64.inf sign => !sign
  | F64.finite sign m e =>
    if sign then false
    else if 0 ≤ e then decide (c < m * 2 ^ e.toNat)
    else decide (c * 2 ^ (-e).toNat < m)

/-- Find the decimal magnitude of `N/M` below one: least `j ≥ 1` with
`N * 10^j ≥ M`. -/
def smallExpAux : Nat → Nat → Nat → Nat → Nat
  | 0, _, _, j => j
  | fuel + 1, N, M, j =>
    if M ≤ N * 10 ^ j then j else smallExpAux fuel N M (j + 1)

/-- Shortest-digit search: the least significant-digit count whose
rounded decimal reads back to the same double (17 digits always do). -/
def shortestLoop : Nat → Bool → Nat → Nat → F64 → Int → Nat → (Nat × Int)
  | 0, _, N, M, _, k, _ => (roundAt N M 10 (k - 16), k - 16)
  | fuel + 1, sign, N, M, f, k, t =>
    let p : Int := k - (t : Int) + 1
    let D := roundAt N M 10 p
    if dec2f64 sign D p = f then (D, p)
    else shortestLoop fuel sign N M f k (t + 1)

/-- Strip trailing decimal zeros, returning the stripped number and the
count removed. -/
def stripZeros : Nat → Nat → (Nat × Nat)
  | 0, D => (D, 0)
  | fuel + 1, D =>
    if D ≠ 0 && D % 10 = 0 then
      let dz := stripZeros fuel (D / 10)
      (dz.1, dz.2 + 1)
    else (D, 0)

/-- Left-pad a string with zeros to the given width. -/
def padZeros (s : String) (w : Nat) : String :=
  String.mk (List.replicate (w - s.data.length) '0') ++ s

/-- Format a significand/exponent pair the way Python `str` formats a
float: positional for exponents in `[-4, 16)`, scientific otherwise. -/
def formatSig (sign : Bool) (digits : String) (k : Int) : String :=
  let sgn := if sign then "-" else ""
  if -4 ≤ k && k < 16 then
    if 0 ≤ k then
      let kn := k.toNat
      if digits.data.length ≤ kn + 1 then
        sgn ++ digits ++ String.mk (List.replicate (kn + 1 - digits.data.length) '0') ++ ".0"
      else
        sgn ++ String.mk (digits.data.take (kn + 1)) ++ "." ++
          String.mk (digits.data.drop (kn + 1))
    else
      sgn ++ "0." ++ String.mk (List.replicate ((-k).toNat - 1) '0') ++ digits
  else
    match digits.data with
    | c :: rest =>
      sgn ++ String.mk [c] ++ (if rest.isEmpty then "" else "." ++ String.mk rest) ++
        "e" ++ (if k < 0 then "-" else "+") ++ padZeros (toString k.natAbs) 2
    | [] => sgn ++ "0"

/-- Shortest round-trip decimal representation of a finite nonzero
double, as Python prints it. -/
def f64ReprGeneral (sign : Bool) (m : Nat) (e : Int) : String :=
  let N := if 0 ≤ e then m * 2 ^ e.toNat else m
  let M := if 0 ≤ e then 1 else 2 ^ (-e).toNat
  let k : Int :=
    if M ≤ N then (digitCount (N / M) : Int) - 1
    else -(smallExpAux 400 N M 1 : Int)
  let dp := shortestLoop 17 sign N M (F64.finite sign m e) k 1
  let dz := stripZeros 20 dp.1
  let digits := toString dz.1
  let kk : Int := dp.2 + (dz.2 : Int) + (digitCount dz.1 : Int) - 1
  formatSig sign digits kk

/-- Python `str` of a double.  Integral values below `10^16` print as the
exact integer with a trailing `.0`; this short cut agrees with the
shortest round-trip form because such values are exactly representable
and closer to every other decimal than half an ulp. -/
def f64Repr (f : F64) : String :=
  match f with
  | F64.nan => "nan"
  | F64.inf sign => if sign then "-inf" else "inf"
  | F64.finite sign m e =>
    if m = 0 then (if sign then "-0.0" else "0.0")
    else
      let intv : Option Nat :=
        if 0 ≤ e then some (m * 2 ^ e.toNat)
        else if m % 2 ^ (-e).toNat = 0 then some (m / 2 ^ (-e).toNat) else none
      match intv with
      | some v =>
        if v < 10 ^ 16 then (if sign then "-" else "") ++ toString v ++ ".0"
        else f64ReprGeneral sign m e
      | none => f64ReprGeneral sign m e

/-- Scan a digit run the way Python number parsing does, allowing single
underscores between digits; returns value, digit count and rest. -/
def pyDigitsAux : Nat → List Char → Nat → Nat → (Nat × Nat × List Char)
  | 0, l, acc, cnt => (acc, cnt, l)
  | fuel + 1, l, acc, cnt =>
    match l with
    | [] => (acc, cnt, [])
    | c :: cs =>
      if c.isDigit then pyDigitsAux fuel cs (10 * acc + (c.toNat - 48)) (cnt + 1)
      else if c == '_' then
        match cs with
        | d :: cs2 =>
          if d.isDigit then pyDigitsAux fuel cs2 (10 * acc + (d.toNat - 48)) (cnt + 1)
          else (acc, cnt, c :: cs)
        | [] => (acc, cnt, [c])
      else (acc, cnt, c :: cs)

/-- Python whitespace, as stripped by `str.strip` and `float`. -/
def isPyWs (c : Char) : Bool :=
  c == ' ' || c == tabChar || c == lfChar || c == crChar ||
  c == Char.ofNat 11 || c == Char.ofNat 12

/-- Scan a Python digit run, requiring a leading digit (underscores may
only separate digits). -/
def pyDigits (l : List Char) : Nat × Nat × List Char :=
  match l with
  | c :: _ => if c.isDigit then pyDigitsAux l.length l 0 0 else (0, 0, l)
  | [] => (0, 0, l)

/-- Split an optional leading sign, returning whether it was a minus. -/
def splitSign (l : List Char) : Bool × List Char :=
  match l with
  | c :: cs => if c == '-' then (true, cs) else if c == '+' then (false, cs) else (false, l)
  | [] => (false, l)

/-- No text other than whitespace remains. -/
def restOk (r : List Char) : Bool := (r.dropWhile isPyWs).isEmpty

/-- Parse a character list as Python `float` does (ASCII forms: sign,
digits with underscores, fraction, exponent, and the `inf`/`infinity`/
`nan` words), as the element conversion of `astype("float64")` applies
it to strings. -/
def pyFloatChars (l0 : List Char) : Option F64 :=
  let l := l0.dropWhile isPyWs
  let sl := splitSign l
  let sign := sl.1
  let l1 := sl.2
  match l1 with
  | [] => none
  | c0 :: _ =>
    if c0.isDigit || c0 == '.' then
      let ip := pyDigits l1
      let ipVal := ip.1
      let ipCnt := ip.2.1
      let l2 := ip.2.2
      let fp := match l2 with
        | c :: cs => if c == '.' then pyDigits cs else (0, 0, l2)
        | [] => (0, 0, l2)
      let fpVal := fp.1
      let fpCnt := fp.2.1
      let l3 := fp.2.2
      if ipCnt + fpCnt = 0 then none
      else
        let ex : Option (Int × List Char) := match l3 with
          | c :: cs =>
            if c == 'e' || c == 'E' then
              let se := splitSign cs
              let ep := pyDigits se.2
              if ep.2.1 = 0 then none
              else some ((if se.1 then -(ep.1 : Int) else (ep.1 : Int)), ep.2.2)
            else some (0, l3)
          | [] => some (0, l3)
        match ex with
        | none => none
        | some er =>
          if restOk er.2 then
            some (dec2f64 sign (ipVal * 10 ^ fpCnt + fpVal) (er.1 - (fpCnt : Int)))
          else none
    else
      let low := lowerAscii l1
      if ['i', 'n', 'f', 'i', 'n', 'i', 't', 'y'].isPrefixOf low && restOk (l1.drop 8) then
        some (F64.inf sign)
      else if ['i', 'n', 'f'].isPrefixOf low && restOk (l1.drop 3) then
        some (F64.inf sign)
      else if ['n', 'a', 'n'].isPrefixOf low && restOk (l1.drop 3) then
        some F64.nan
      else none

/-- Python `float` applied to a string. -/
def pyFloatParse (s : String) : Option F64 := pyFloatChars s.data

/-- Parse a string as `astype("int64")` parses object elements (Python
`int`): whitespace, sign, digits with underscores, 64-bit signed range. -/
def intStringParse (s : String) : Option Int :=
  let l := s.data.dropWhile isPyWs
  let sl := splitSign l
  let dp := pyDigits sl.2
  if dp.2.1 = 0 then none
  else if !restOk dp.2.2 then none
  else
    let v : Int := if sl.1 then -(dp.1 : Int) else (dp.1 : Int)
    if v.natAbs < 2 ^ 63 then some v else none

/-- JSON values as produced by the JSON-Lines reader.  Numbers parse to
exact integers or to binary64 doubles, as the reader's backend does. -/
inductive Json where
  | null
  | bool (b : Bool)
  | int (n : Int)
  | float (f : F64)
  | str (s : String)
  | arr (elems : List Json)
  | obj (fields : List (String × Json))

/-- Whitespace as skipped by the JSON reader. -/
def isJsonWs (c : Char) : Bool :=
  c == ' ' || c == tabChar || c == lfChar || c == crChar

/-- Drop leading JSON whitespace. -/
def skipWs : List Char → List Char
  | [] => []
  | c :: cs => if isJsonWs c then skipWs cs else c :: cs

/-- Value of a hexadecimal digit. -/
def hexNibble (c : Char) : Option Nat :=
  if c.isDigit then some (c.toNat - 48)
  else if 97 ≤ c.toNat && c.toNat ≤ 102 then some (c.toNat - 87)
  else if 65 ≤ c.toNat && c.toNat ≤ 70 then some (c.toNat - 55)
  else none

/-- Translate a single-character JSON escape (the character after a
backslash); `\u` escapes are handled by the string parser itself. -/
def escChar (c : Char) : Option Char :=
  if c == quoteChar then some quoteChar
  else if c == backslashChar then some backslashChar
  else if c == '/' then some '/'
  else if c == 'n' then some lfChar
  else if c == 't' then some tabChar
  else if c == 'r' then some crChar
  else if c == 'b' then some (Char.ofNat 8)
  else if c == 'f' then some (Char.ofNat 12)
  else none

/-- Parse the body of a JSON string after the opening quote, returning the
decoded characters and the input following the closing quote.  Handles
the single-character escapes and `\u` escapes, including surrogate
pairs (a lone surrogate is rejected). -/
def parseStrChars : List Char → Option (List Char × List Char)
  | [] => none
  | c :: cs =>
    if c == quoteChar then some ([], cs)
    else if c == backslashChar then
      match cs with
      | 'u' :: h1 :: h2 :: h3 :: h4 :: rest =>
        (match hexNibble h1, hexNibble h2, hexNibble h3, hexNibble h4 with
         | some x1, some x2, some x3, some x4 =>
           let code := 4096 * x1 + 256 * x2 + 16 * x3 + x4
           if 55296 ≤ code && code ≤ 56319 then
             match rest with
             | b2 :: u2 :: k1 :: k2 :: k3 :: k4 :: rest2 =>
               if b2 == backslashChar && u2 == 'u' then
                 match hexNibble k1, hexNibble k2, hexNibble k3, hexNibble k4 with
                 | some y1, some y2, some y3, some y4 =>
                   let low := 4096 * y1 + 256 * y2 + 16 * y3 + y4
                   if 56320 ≤ low && low ≤ 57343 then
                     match parseStrChars rest2 with
                     | some sr =>
                       some (Char.ofNat (65536 + (code - 55296) * 1024 + (low - 56320)) :: sr.1,
                         sr.2)
                     | none => none
                   else none
                 | _, _, _, _ => none
               else none
             | _ => none
           else if 56320 ≤ code && code ≤ 57343 then none
           else
             match parseStrChars rest with
             | some sr => some (Char.ofNat code :: sr.1, sr.2)
             | none => none
         | _, _, _, _ => none)
      | e :: cs2 =>
        match escChar e, parseStrChars cs2 with
        | some d, some (s, r) => some (d :: s, r)
        | _, _ => none
      | [] => none
    else
      match parseStrChars cs with
      | some (s, r) => some (c :: s, r)
      | none => none

/-- Digit span: leading decimal digits and the rest of the input. -/
def spanDigits : List Char → (List Char × List Char)
  | [] => ([], [])
  | c :: cs =>
    if c.isDigit then
      let (ds, r) := spanDigits cs
      (c :: ds, r)
    else ([], c :: cs)

/-- Numeric value of a digit list. -/
def digitsToNat (ds : List Char) : Nat :=
  ds.foldl (fun acc c => 10 * acc + (c.toNat - 48)) 0

/-- Parse a JSON number literal with the strict JSON grammar: optional
minus, integer part without leading zeros, optional fraction and
exponent.  A plain integer literal yields an exact integer in the
reader's 64-bit range (outside it the reader raises, so the parse
fails); a fractional or exponent form yields the nearest binary64
double. -/
def parseJsonNumber (l : List Char) : Option (Json × List Char) :=
  let sl : Bool × List Char := match l with
    | c :: cs => if c == '-' then (true, cs) else (false, l)
    | [] => (false, l)
  let sign := sl.1
  match spanDigits sl.2 with
  | ([], _) => none
  | (ds, r1) =>
    match ds with
    | '0' :: _ :: _ => none
    | _ =>
      let ipVal := digitsToNat ds
      let fr : Option (Nat × Nat × List Char) := match r1 with
        | c :: cs =>
          if c == '.' then
            match spanDigits cs with
            | ([], _) => none
            | (fs, r2) => some (digitsToNat fs, fs.length, r2)
          else some (0, 0, r1)
        | [] => some (0, 0, r1)
      match fr with
      | none => none
      | some frv =>
        let fVal := frv.1
        let fCnt := frv.2.1
        let r2 := frv.2.2
        let ex : Option (Option Int × List Char) := match r2 with
          | c :: cs =>
            if c == 'e' || c == 'E' then
              let se : Bool × List Char := match cs with
                | d :: dsx =>
                  if d == '-' then (true, dsx)
                  else if d == '+' then (false, dsx)
                  else (false, cs)
                | [] => (false, cs)
              match spanDigits se.2 with
              | ([], _) => none
              | (es, r3) =>
                some (some (if se.1 then -(digitsToNat es : Int) else (digitsToNat es : Int)), r3)
            else some (none, r2)
          | [] => some (none, r2)
        match ex with
        | none => none
        | some exv =>
          match exv.1 with
          | none =>
            if fCnt = 0 then
              if (!sign && ipVal < 2 ^ 64) || (sign && ipVal ≤ 2 ^ 63) then
                some (Json.int (if sign then -(ipVal : Int) else (ipVal : Int)), exv.2)
              else none
            else
              some (Json.float (dec2f64 sign (ipVal * 10 ^ fCnt + fVal) (-(fCnt : Int))), exv.2)
          | some e =>
            some (Json.float (dec2f64 sign (ipVal * 10 ^ fCnt + fVal) (e - (fCnt : Int))), exv.2)

/-- Insert a key/value pair into an association list with Python `dict`
semantics: a repeated key keeps its first position but takes the last
value. -/
def dictInsert (d : List (String × Json)) (k : String) (v : Json) :
    List (String × Json) :=
  match d with
  | [] => [(k, v)]
  | (k0, v0) :: rest =>
    if k0 == k then (k0, v) :: rest else (k0, v0) :: dictInsert rest k v

/-- Check that the input starts with the given literal characters and
return the remainder. -/
def expectLit : List Char → List Char → Option (List Char)
  | [], l => some l
  | e :: es, c :: cs => if c == e then expectLit es cs else none
  | _ :: _, [] => none

mutual

/-- Fuel-indexed recursive-descent parser for one JSON value.  Consumes
leading whitespace; returns the value and the unconsumed input. -/
def parseVal : Nat → List Char → Option (Json × List Char)
  | 0, _ => none
  | fuel + 1, l =>
    match skipWs l with
    | [] => none
    | c :: cs =>
      if c == quoteChar then
        match parseStrChars cs with
        | some (s, r) => some (Json.str (String.mk s), r)
        | none => none
      else if c == 'n' then
        match expectLit ['u', 'l', 'l'] cs with
        | some r => some (Json.null, r)
        | none => none
      else if c == 't' then
        match expectLit ['r', 'u', 'e'] cs with
        | some r => some (Json.bool true, r)
        | none => none
      else if c == 'f' then
        match expectLit ['a', 'l', 's', 'e'] cs with
        | some r => some (Json.bool false, r)
        | none => none
      else if c == '[' then
        match skipWs cs with
        | ']' :: r => some (Json.arr [], r)
        | l2 => match parseElems fuel l2 with
          | some (vs, r) => some (Json.arr vs, r)
          | none => none
      else if c == Char.ofNat 123 then
        match skipWs cs with
        | c2 :: r =>
          if c2 == Char.ofNat 125 then some (Json.obj [], r)
          else match parseFields fuel (c2 :: r) with
            | some (fs, r2) =>
              some (Json.obj (fs.foldl (fun d kv => dictInsert d kv.1 kv.2) []), r2)
            | none => none
        | [] => none
      else if c == '-' || c.isDigit then
        parseJsonNumber (c :: cs)
      else none

/-- Parse one or more comma-separated array elements up to the closing
bracket. -/
def parseElems : Nat → List Char → Option (List Json × List Char)
  | 0, _ => none
  | fuel + 1, l =>
    match parseVal fuel l with
    | none => none
    | some (v, r) =>
      match skipWs r with
      | ',' :: r2 =>
        match parseElems fuel r2 with
        | some (vs, r3) => some (v :: vs, r3)
        | none => none
      | ']' :: r2 => some ([v], r2)
      | _ => none

/-- Parse one or more comma-separated object members up to the closing
brace, returning them in source order (duplicates included; `dict`
semantics are applied where the object is built). -/
def parseFields : Nat → List Char → Option (List (String × Json) × List Char)
  | 0, _ => none
  | fuel + 1, l =>
    match skipWs l with
    | c :: cs =>
      if c == quoteChar then
        match parseStrChars cs with
        | some (ks, r) =>
          match skipWs r with
          | ':' :: r2 =>
            match parseVal fuel r2 with
            | some (v, r3) =>
              match skipWs r3 with
              | ',' :: r4 =>
                match parseFields fuel r4 with
                | some (fs, r5) => some ((String.mk ks, v) :: fs, r5)
                | none => none
              | c5 :: r4 =>
                if c5 == Char.ofNat 125 then
                  some ([(String.mk ks, v)], r4)
                else none
              | [] => none
            | none => none
          | _ => none
        | none => none
      else none
    | [] => none

end

/-- One parsed input record: a key/value map with `dict` semantics. -/
abbrev Record : Type := List (String × Json)

/-- Parse one input line as a self-contained JSON object, requiring that
nothing but whitespace follows it. -/
def parseRecordLine (s : String) : Option Record :=
  match parseVal (s.length + 1) s.data with
  | some (Json.obj fields, rest) =>
    match skipWs rest with
    | [] => some fields
    | _ :: _ => none
  | _ => none

/-- Split a character list at every line feed, keeping empty segments,
with the semantics of Python `str.split` on a newline. -/
def splitLinesChars : List Char → List (List Char)
  | [] => [[]]
  | c :: cs =>
    if c == lfChar then [] :: splitLinesChars cs
    else
      match splitLinesChars cs with
      | l :: ls => (c :: l) :: ls
      | [] => [[c]]

/-- Strip leading and trailing Python whitespace from a string. -/
def pyStrip (s : String) : String :=
  String.mk (((s.data.dropWhile isPyWs).reverse.dropWhile isPyWs).reverse)

/-- Split the input into lines, strip each line, and drop the ones left
empty, as the reader combines JSON lines before parsing. -/
def nonBlankLines (s : String) : List String :=
  ((splitLinesChars s.data).map (fun l => pyStrip (String.mk l))).filter (fun l => l ≠ "")

/-- Parse a list of lines in order; fail as soon as one line fails. -/
def parseLines : List String → Option (List Record)
  | [] => some []
  | l :: ls =>
    match parseRecordLine l with
    | none => none
    | some r =>
      match parseLines ls with
      | none => none
      | some rs => some (r :: rs)

/-- Parse a whole JSON-Lines input; `none` when any non-blank line fails
to parse. -/
def parseJsonl (s : String) : Option (List Record) :=
  parseLines (nonBlankLines s)

/-- Keys of a record, in insertion order. -/
def keysOf (r : Record) : List String := r.map Prod.fst

/-- Raw lookup of a key in a record. -/
def recLookup (r : Record) (k : String) : Option Json :=
  match r with
  | [] => none
  | (k0, v) :: rest => if k0 == k then some v else recLookup rest k

/-- Cell of a record at a column.  A missing key and a JSON `null` both
produce a missing cell (the reader turns `null` into `NaN`). -/
def cellOf (r : Record) (k : String) : Option Json :=
  match recLookup r k with
  | some Json.null => none
  | some v => some v
  | none => none

/-- Append a key to the accumulated column list unless already present. -/
def insertKey (acc : List String) (k : String) : List String :=
  if k ∈ acc then acc else acc ++ [k]

/-- Columns of the frame built from the records: the union of all keys in
order of first appearance, as the frame constructor accumulates them. -/
def inferColumns (recs : List Record) : List String :=
  ((recs.map keysOf).flatten).foldl insertKey []

/-- Cell predicate: an integer value, present. -/
def isIntCell : Option Json → Bool
  | some (Json.int _) => true
  | _ => false

/-- Cell predicate: an integer value or a missing cell. -/
def isIntOrMissingCell : Option Json → Bool
  | some (Json.int _) => true
  | none => true
  | _ => false

/-- Cell predicate: a boolean value, present. -/
def isBoolCell : Option Json → Bool
  | some (Json.bool _) => true
  | _ => false

/-- Binary64 value of a cell under the reader's `astype("float64")`
coercion: the outer `Option` is failure (a value float conversion
rejects), the inner one a missing entry.  Booleans coerce to one and
zero, integers round to the nearest double, and strings go through the
Python `float` parse. -/
def cellF64 : Option Json → Option (Option F64)
  | none => some none
  | some (Json.bool b) => some (some (intToF64 (if b then 1 else 0)))
  | some (Json.int n) => some (some (intToF64 n))
  | some (Json.float f) => some (some f)
  | some (Json.str s) =>
    match pyFloatParse s with
    | some f => some (some f)
    | none => none
  | some _ => none

/-- Whether a cell survives the float coercion. -/
def isNumericible (c : Option Json) : Bool := (cellF64 c).isSome

/-- Whether every cell is a present, finite, integral double in the
64-bit range, so that the `astype("int64")` pass keeps the column. -/
def intableCell (c : Option Json) : Bool :=
  match cellF64 c with
  | some (some f) => (f64AsInt f).isSome
  | _ => false

/-- Integer reading of a cell as the epoch path of the date converter
takes it: `astype("int64")` over ints, booleans and integer strings, and
a nearest-integer rounding of doubles. -/
def dateRawCell : Option Json → Option (Option Int)
  | none => some none
  | some (Json.int n) => some (some n)
  | some (Json.bool b) => some (some (if b then 1 else 0))
  | some (Json.float f) =>
    match f64MulRound f 1 with
    | some v => some (some v)
    | none => none
  | some (Json.str s) =>
    match intStringParse s with
    | some v => some (some v)
    | none => none
  | some _ => none

/-- Integer readings of a whole column; `none` when any cell fails. -/
def dateColRaw : List (Option Json) → Option (List (Option Int))
  | [] => some []
  | c :: cs =>
    match dateRawCell c with
    | none => none
    | some v =>
      match dateColRaw cs with
      | none => none
      | some vs => some (v :: vs)

/-- Columns converted to dates by default: names ending `_at` or
`_time`, starting `timestamp`, or equal to `modified`, `date` or
`datetime` (case-insensitive). -/
def isDefaultDateCol (name : String) : Bool :=
  let l := lowerAscii name.data
  ['_', 'a', 't'].isSuffixOf l || ['_', 't', 'i', 'm', 'e'].isSuffixOf l ||
  ['t', 'i', 'm', 'e', 's', 't', 'a', 'm', 'p'].isPrefixOf l ||
  l == ['m', 'o', 'd', 'i', 'f', 'i', 'e', 'd'] ||
  l == ['d', 'a', 't', 'e'] ||
  l == ['d', 'a', 't', 'e', 't', 'i', 'm', 'e']

/-- Epoch units tried in order (nanoseconds per unit): seconds,
milliseconds, microseconds, nanoseconds. -/
def pickUnit (vals : List (Option Int)) : Option Nat :=
  [1000000000, 1000000, 1000, 1].find? fun mult =>
    vals.all fun v =>
      match v with
      | none => true
      | some v => decide ((v * (mult : Int)).natAbs ≤ 2 ^ 63 - 1)

/-- The epoch threshold below which numbers are not taken for dates. -/
def minStamp : Nat := 31536000

/-- Date conversion test for one column: every cell must read as an
integer (or be missing), every present value must exceed the minimum
stamp, and some unit must fit; returns the chosen unit. -/
def dateCheck (cells : List (Option Json)) : Option Nat :=
  match dateColRaw cells with
  | none => none
  | some vals =>
    if vals.all (fun v => match v with | none => true | some v => decide ((minStamp : Int) < v)) then
      pickUnit vals
    else none

/-- Column dtypes of the model: boolean, exact integers, integers that
went through float coercion, doubles, epoch dates with their unit, and
Python objects. -/
inductive ColKind where
  | boolK
  | intK
  | intFromFloatK
  | floatK
  | dateK (mult : Nat)
  | objK
deriving DecidableEq

/-- Dtype inference for one column, modelling the frame construction and
the reader's default conversions: an all-present boolean column stays
boolean; a default-date-named column whose values read as epoch numbers
beyond the minimum stamp becomes dates; an all-present integer column
stays exact int64; a column the float coercion accepts becomes int64
when all values are present and integral, else float64; everything else
is held as Python objects. -/
def classify (name : String) (cells : List (Option Json)) : ColKind :=
  if cells.all isBoolCell then ColKind.boolK
  else
    match (if isDefaultDateCol name then dateCheck cells else none) with
    | some mult => ColKind.dateK mult
    | none =>
      if cells.all isIntCell then ColKind.intK
      else if cells.all isNumericible then
        (if cells.all intableCell then ColKind.intFromFloatK else ColKind.floatK)
      else ColKind.objK

/-- Hexadecimal digit character (lowercase). -/
def hexDigit (n : Nat) : Char :=
  if n < 10 then Char.ofNat (48 + n) else Char.ofNat (87 + n)

/-- Escape string contents as Python `repr` does for the chosen quote:
backslashes and the quote doubled, the common control characters named,
and other ASCII control characters in `\xNN` form. -/
def pyReprEscape (q : Char) : List Char → List Char
  | [] => []
  | c :: cs =>
    (if c == backslashChar then [backslashChar, backslashChar]
     else if c == q then [backslashChar, q]
     else if c == lfChar then [backslashChar, 'n']
     else if c == crChar then [backslashChar, 'r']
     else if c == tabChar then [backslashChar, 't']
     else if c.toNat < 32 || c.toNat == 127 then
       [backslashChar, 'x', hexDigit (c.toNat / 16), hexDigit (c.toNat % 16)]
     else [c]) ++ pyReprEscape q cs

/-- Python `repr` of a string: single-quoted, switching to double quotes
when the text has a single quote but no double quote, with `repr`
escaping of the contents. -/
def pyStrRepr (s : String) : String :=
  let q :=
    if s.data.contains squoteChar && !(s.data.contains quoteChar) then quoteChar
    else squoteChar
  String.mk (q :: (pyReprEscape q s.data ++ [q]))

mutual

/-- Python `repr` of a parsed JSON value: `None`, `True`/`False`, decimal
integers, single-quoted strings, and bracketed lists and dicts. -/
def pyRepr : Json → String
  | Json.null => "None"
  | Json.bool b => if b then "True" else "False"
  | Json.int n => toString n
  | Json.float f => f64Repr f
  | Json.str s => pyStrRepr s
  | Json.arr xs => "[" ++ pyReprElems xs ++ "]"
  | Json.obj fs => "\x7b" ++ pyReprFields fs ++ "\x7d"
termination_by structural j => j

/-- Comma-separated `repr` of list elements. -/
def pyReprElems : List Json → String
  | [] => ""
  | [v] => pyRepr v
  | v :: v2 :: vs => pyRepr v ++ ", " ++ pyReprElems (v2 :: vs)
termination_by structural l => l

/-- Comma-separated `repr` of dict entries. -/
def pyReprFields : List (String × Json) → String
  | [] => ""
  | [(k, v)] => pyStrRepr k ++ ": " ++ pyRepr v
  | (k, v) :: f2 :: fs =>
    pyStrRepr k ++ ": " ++ pyRepr v ++ ", " ++ pyReprFields (f2 :: fs)
termination_by structural l => l

end

/-- Python `str` of a parsed JSON value: strings print verbatim, all other
values print as their `repr`. -/
def pyStr : Json → String
  | Json.str s => s
  | v => pyRepr v

/-- Year, month and day of a day count since the epoch (the standard
civil-from-days conversion, valid for nonnegative epochs). -/
def civilFromDays (z0 : Nat) : Nat × Nat × Nat :=
  let z := z0 + 719468
  let era := z / 146097
  let doe := z % 146097
  let yoe := (doe - doe / 1460 + doe / 36524 - doe / 146096) / 365
  let y := yoe + era * 400
  let doy := doe - (365 * yoe + yoe / 4 - yoe / 100)
  let mp := (5 * doy + 2) / 153
  let d := doy - (153 * mp + 2) / 5 + 1
  let m := if mp < 10 then mp + 3 else mp - 9
  (if m ≤ 2 then y + 1 else y, m, d)

/-- Timestamp text for a nonnegative epoch in nanoseconds, as the frame
prints a datetime value: `YYYY-MM-DD HH:MM:SS` with microseconds and
nanoseconds appended only when nonzero. -/
def formatTs (ns : Nat) : String :=
  let sec := ns / 1000000000
  let nsrem := ns % 1000000000
  let ymd := civilFromDays (sec / 86400)
  let sod := sec % 86400
  let base := padZeros (toString ymd.1) 4 ++ "-" ++ padZeros (toString ymd.2.1) 2 ++ "-" ++
    padZeros (toString ymd.2.2) 2 ++ " " ++ padZeros (toString (sod / 3600)) 2 ++ ":" ++
    padZeros (toString (sod % 3600 / 60)) 2 ++ ":" ++ padZeros (toString (sod % 60)) 2
  if nsrem = 0 then base
  else
    base ++ "." ++ padZeros (toString (nsrem / 1000)) 6 ++
      (if nsrem % 1000 = 0 then "" else padZeros (toString (nsrem % 1000)) 3)

/-- Serialise one cell under a column dtype.  A missing cell is empty.
In a float column an integer of magnitude at most `2^53` prints as the
exact integer with `.0` (it is exactly representable and below `10^16`,
where the double print is positional and exact); anything else prints
through the double conversion.  Dates print epoch values at the chosen
unit; object cells print with Python `str`. -/
def renderCell (k : ColKind) (c : Option Json) : String :=
  match c with
  | none => ""
  | some v =>
    match k with
    | ColKind.boolK =>
      match v with
      | Json.bool b => if b then "True" else "False"
      | _ => pyStr v
    | ColKind.intK =>
      match v with
      | Json.int n => toString n
      | _ => pyStr v
    | ColKind.intFromFloatK =>
      match cellF64 (some v) with
      | some (some f) =>
        match f64AsInt f with
        | some n => toString n
        | none => pyStr v
      | _ => pyStr v
    | ColKind.floatK =>
      match v with
      | Json.int n =>
        if n.natAbs ≤ 2 ^ 53 then toString n ++ ".0" else f64Repr (intToF64 n)
      | _ =>
        match cellF64 (some v) with
        | some (some f) => if f = F64.nan then "" else f64Repr f
        | _ => pyStr v
    | ColKind.dateK mult =>
      match dateRawCell (some v) with
      | some (some ev) =>
        if 0 ≤ ev * (mult : Int) then formatTs (ev * (mult : Int)).toNat else ""
      | _ => ""
    | ColKind.objK => pyStr v

/-- Cells of one column across all records. -/
def columnCells (recs : List Record) (k : String) : List (Option Json) :=
  recs.map (fun r => cellOf r k)

/-- The text a record contributes to a column of the frame. -/
def renderedCell (recs : List Record) (r : Record) (k : String) : String :=
  renderCell (classify k (columnCells recs k)) (cellOf r k)

/-- All data rows of the frame, as cell texts. -/
def tableRows (recs : List Record) : List (List String) :=
  recs.map (fun r => (inferColumns recs).map (renderedCell recs r))

/-- The reader's default axis conversion applied to the column labels:
an all-integer label set beyond the minimum stamp becomes dates, an
all-numeric label set becomes numbers (integers when all are integral),
and otherwise the labels stay verbatim. -/
def convertAxes (labels : List String) : List String :=
  if labels.isEmpty then labels
  else
    let ints := labels.map intStringParse
    let dateOk := ints.all (fun v => match v with
      | some v => decide ((minStamp : Int) < v)
      | none => false)
    let unitPick := pickUnit (ints.map (fun v => v))
    match (if dateOk then unitPick else none) with
    | some mult =>
      labels.map fun lb =>
        match intStringParse lb with
        | some v => if 0 ≤ v * (mult : Int) then formatTs (v * (mult : Int)).toNat else lb
        | none => lb
    | none =>
      let fls := labels.map pyFloatParse
      if fls.all Option.isSome then
        if fls.all (fun f => match f with
            | some f => (f64AsInt f).isSome
            | none => false) then
          labels.map fun lb =>
            match pyFloatParse lb with
            | some f =>
              match f64AsInt f with
              | some n => toString n
              | none => lb
            | none => lb
        else
          labels.map fun lb =>
            match pyFloatParse lb with
            | some f => f64Repr f
            | none => lb
      else labels

/-- Characters that force CSV quoting under minimal quoting: the
delimiter, the quote character, and line terminators. -/
def needsQuotingChar (c : Char) : Bool :=
  c == ',' || c == quoteChar || c == lfChar || c == crChar

/-- Whether a field must be quoted. -/
def needsQuoting (s : String) : Bool := s.data.any needsQuotingChar

/-- Double every quote character, as RFC-4180 quoting does. -/
def escapeQuotes : List Char → List Char
  | [] => []
  | c :: cs =>
    if c == quoteChar then quoteChar :: quoteChar :: escapeQuotes cs
    else c :: escapeQuotes cs

/-- Encode one CSV field with minimal quoting. -/
def csvField (s : String) : String :=
  if needsQuoting s then String.mk (quoteChar :: (escapeQuotes s.data ++ [quoteChar]))
  else s

/-- Encode one CSV row. -/
def csvRow (cells : List String) : String :=
  String.intercalate "," (cells.map csvField)

/-- All lines of the output: the header row then one row per record. -/
def csvLines (recs : List Record) : List String :=
  csvRow (convertAxes (inferColumns recs)) :: (tableRows recs).map csvRow

/-- The complete output text, newline-terminated. -/
def renderCsv (recs : List Record) : String :=
  String.intercalate "\n" (csvLines recs) ++ "\n"

/-- Diagnostic used by the model for the uncaught reader error. -/
def parseErrorMsg : String := "ValueError: malformed JSON line"

/-- The whole conversion: parse every line, then serialise.  The reader
runs to completion before any output exists, so a parse failure yields an
error and no output text. -/
def convert (input : String) : Except String String :=
  match parseJsonl input with
  | none => Except.error parseErrorMsg
  | some recs => Except.ok (renderCsv recs)

/-- Replace every non-overlapping occurrence of `pat`, left to right, as
Python `str.replace` does; `fuel` bounds the scan. -/
def replaceAllAux : Nat → List Char → List Char → List Char → List Char
  | 0, l, _, _ => l
  | fuel + 1, l, pat, rep =>
    match l with
    | [] => []
    | c :: cs =>
      if !pat.isEmpty && pat.isPrefixOf l then
        rep ++ replaceAllAux fuel (l.drop pat.length) pat rep
      else c :: replaceAllAux fuel cs pat rep

/-- Python `str.replace`: replace all occurrences of `pat` by `rep`. -/
def pyReplace (s pat rep : String) : String :=
  String.mk (replaceAllAux s.data.length s.data pat.data rep.data)

/-- Hardcoded input path: `file_name = 'logs.jsonl'` (line 18). -/
def file_name : String := "logs.jsonl"

/-- Output path: `output_file = file_name.replace('.jsonl', '.csv')`
(line 22). -/
def output_file : String := pyReplace file_name ".jsonl" ".csv"

/-- A file system as seen by one run: path to contents. -/
abbrev FileSys := String → Option String

/-- One run of the script: read the input file, convert it, and write the
output file; `none` when the read or the conversion fails, in which case
no file changes. -/
def runScript (fs : FileSys) : Option FileSys :=
  match fs file_name with
  | none => none
  | some content =>
    match convert content with
    | Except.error _ => none
    | Except.ok csv => some (fun p => if p = output_file then some csv else fs p)

/-- Successful parsing yields one record per line. -/
theorem parseLines_length (ls : List String) (rs : List Record)
    (h : parseLines ls = some rs) : rs.length = ls.length := by
  induction ls generalizing rs with
  | nil =>
    unfold parseLines at h
    cases h
    rfl
  | cons a as ih =>
    unfold parseLines at h
    cases hp : parseRecordLine a with
    | none => rw [hp] at h; cases h
    | some r =>
      rw [hp] at h
      cases hq : parseLines as with
      | none => rw [hq] at h; cases h
      | some rs2 =>
        rw [hq] at h
        cases h
        simp [ih rs2 hq]

/-- C1: on the input whose two lines are the objects with `a = 1, b = "x"`
and `a = 2, c = "y"`, the conversion produces the CSV with header row
`a,b,c`, first data row `1,x,`, and second data row `2,,y`. -/
theorem c1_example_conversion :
    convert "\x7b\"a\":1,\"b\":\"x\"\x7d\n\x7b\"a\":2,\"c\":\"y\"\x7d\n" =
      Except.ok "a,b,c\n1,x,\n2,,y\n" ∧
    ∃ recs,
      parseJsonl "\x7b\"a\":1,\"b\":\"x\"\x7d\n\x7b\"a\":2,\"c\":\"y\"\x7d\n" = some recs ∧
      csvLines recs = ["a,b,c", "1,x,", "2,,y"] := by
  refine ⟨rfl, [[("a", Json.int 1), ("b", Json.str "x")],
    [("a", Json.int 2), ("c", Json.str "y")]], rfl, rfl⟩

/-! ### Claim C2 -/

/-- C2: for every input whose non-blank lines all parse, the number of
data rows in the output CSV equals the number of non-blank input lines
(the output has exactly one further line, the header). -/
theorem c2_row_count (input : String) (recs : List Record)
    (h : parseJsonl input = some recs) :
    convert input = Except.ok (renderCsv recs) ∧
    (tableRows recs).length = (nonBlankLines input).length ∧
    (csvLines recs).length = (nonBlankLines input).length + 1 := by
  have hlen : recs.length = (nonBlankLines input).length :=
    parseLines_length _ _ h
  refine ⟨?_, ?_, ?_⟩
  · unfold convert
    rw [h]
  · simp [tableRows, hlen]
  · simp [csvLines, tableRows, hlen]

/-- Witness for C2 at a one-line input. -/
theorem c2_row_count_witness :
    (tableRows [[("a", Json.int 1)]]).length =
      (nonBlankLines "\x7b\"a\":1\x7d\n").length :=
  (c2_row_count "\x7b\"a\":1\x7d\n" [[("a", Json.int 1)]] rfl).2.1

/-! ### Claim C3 -/

/-- Characterisation of a successful run: the input file is read, the
conversion succeeds, and exactly the output file changes. -/
theorem runScript_eq_some (fs fs2 : FileSys) :
    runScript fs = some fs2 ↔
      ∃ content csv, fs file_name = some content ∧
        convert content = Except.ok csv ∧
        fs2 = fun p => if p = output_file then some csv else fs p := by
  unfold runScript
  cases hread : fs file_name with
  | none => simp
  | some content =>
    cases hconv : convert content with
    | error e => simp [hconv]
    | ok csv => simp [hconv, eq_comm]

/-- C5: a successful run is deterministic and idempotent: running the
script again on the file system the first run produced succeeds and
changes nothing, so the output file is byte-identical both times. -/
theorem c5_rerun_identical (fs fs2 : FileSys)
    (h : runScript fs = some fs2) : runScript fs2 = some fs2 := by
  obtain ⟨content, csv, hread, hconv, hfs2⟩ := (runScript_eq_some fs fs2).mp h
  apply (runScript_eq_some fs2 fs2).mpr
  refine ⟨content, csv, ?_, hconv, ?_⟩
  · rw [hfs2]
    simp only []
    rw [if_neg (show ¬ file_name = output_file by decide), hread]
  · funext p
    by_cases hp : p = output_file
    · rw [hfs2]
      simp [hp]
    · simp [hp]

/-- Witness for C5: running on the file system already holding the
converted output reproduces it unchanged. -/
theorem c5_rerun_identical_witness :
    runScript (fun p => if p = output_file then some "a\n1\n"
        else if p = file_name then some "\x7b\"a\":1\x7d\n" else none) =
      some (fun p => if p = output_file then some "a\n1\n"
        else if p = file_name then some "\x7b\"a\":1\x7d\n" else none) :=
  c5_rerun_identical
    (fun p => if p = file_name then some "\x7b\"a\":1\x7d\n" else none) _ rfl

/-! ### Claim C6 -/

/-- C6: the output path replaces the trailing `.jsonl` of the hardcoded
input path `logs.jsonl` by `.csv`, giving `logs.csv` and leaving the base
name `logs` unaltered. -/
theorem c6_output_path :
    output_file = "logs.csv" ∧ file_name = "logs" ++ ".jsonl" ∧
      output_file = "logs" ++ ".csv" :=
  ⟨rfl, rfl, rfl⟩

/-! ### Claim C7 -/

/-- Integral-or-missing cells survive the float coercion. -/
theorem numericible_of_intOrMissing (c : Option Json)
    (h : isIntOrMissingCell c = true) : isNumericible c = true := by
  match c with
  | none => rfl
  | some (Json.int n) => rfl
  | some (Json.bool _) | some Json.null | some (Json.float _)
  | some (Json.str _) | some (Json.arr _) | some (Json.obj _) =>
    simp [isIntOrMissingCell] at h

/-- An integer-or-missing column, not date-named, with at least one
missing entry is coerced to float dtype. -/
theorem classify_floatK (recs : List Record) (k : String)
    (hd : isDefaultDateCol k = false)
    (hall : ∀ r0, r0 ∈ recs → isIntOrMissingCell (cellOf r0 k) = true)
    (hmiss : ∃ r0, r0 ∈ recs ∧ cellOf r0 k = none) :
    classify k (columnCells recs k) = ColKind.floatK := by
  obtain ⟨r0, hr0, hnone⟩ := hmiss
  have hmem : cellOf r0 k ∈ columnCells recs k :=
    List.mem_map_of_mem _ hr0
  rw [hnone] at hmem
  have hb2 : (columnCells recs k).all isBoolCell = false := by
    refine Bool.eq_false_iff.mpr fun hall2 => ?_
    have := List.all_eq_true.mp hall2 _ hmem
    cases this
  have hi2 : (columnCells recs k).all isIntCell = false := by
    refine Bool.eq_false_iff.mpr fun hall2 => ?_
    have := List.all_eq_true.mp hall2 _ hmem
    cases this
  have hita : (columnCells recs k).all intableCell = false := by
    refine Bool.eq_false_iff.mpr fun hall2 => ?_
    have := List.all_eq_true.mp hall2 _ hmem
    cases this
  have hnum : (columnCells recs k).all isNumericible = true := by
    apply List.all_eq_true.mpr
    intro x hx
    obtain ⟨r1, hr1, hxe⟩ := List.mem_map.mp hx
    rw [← hxe]
    exact numericible_of_intOrMissing _ (hall r1 hr1)
  unfold classify
  rw [show (if isDefaultDateCol k then dateCheck (columnCells recs k) else none) = none
    from by simp [hd]]
  simp [hb2, hi2, hnum, hita]

/-- C8 counterexample: at `10^16` the float column prints scientific
notation, not the integer with a trailing `.0`. -/
theorem c8_counterexample :
    convert "\x7b\"a\":10000000000000000\x7d\n\x7b\x7d\n" = Except.ok "a\n1e+16\n\n" ∧
    renderedCell [[("a", Json.int 10000000000000000)], []]
      [("a", Json.int 10000000000000000)] "a" = "1e+16" ∧
    renderedCell [[("a", Json.int 10000000000000000)], []]
      [("a", Json.int 10000000000000000)] "a" ≠
      toString (10000000000000000 : Int) ++ ".0" :=
  ⟨rfl, rfl, by decide⟩

/-- C8 (amended): in a column whose present values are all integers but
which is missing from at least one record, and whose name is not
date-like, every integer of magnitude at most `2^53` prints in
floating-point decimal notation with a trailing `.0`. -/
theorem c8_missing_int_column_floats (recs : List Record) (k : String)
    (r : Record) (n : Int)
    (hd : isDefaultDateCol k = false)
    (hall : ∀ r0, r0 ∈ recs → isIntOrMissingCell (cellOf r0 k) = true)
    (hmiss : ∃ r0, r0 ∈ recs ∧ cellOf r0 k = none)
    (_hr : r ∈ recs) (hv : cellOf r k = some (Json.int n))
    (hbound : n.natAbs ≤ 2 ^ 53) :
    renderedCell recs r k = toString n ++ ".0" := by
  unfold renderedCell
  rw [classify_floatK recs k hd hall hmiss, hv]
  rw [show renderCell ColKind.floatK (some (Json.int n)) =
    if n.natAbs ≤ 2 ^ 53 then toString n ++ ".0" else f64Repr (intToF64 n) from rfl]
  rw [if_pos hbound]

/-- Witness for the amended C8: the integer `2` prints as `2.0` once a
second record misses the column. -/
theorem c8_missing_int_column_floats_witness :
    renderedCell [[("a", Json.int 2)], []] [("a", Json.int 2)] "a" = "2.0" :=
  c8_missing_int_column_floats [[("a", Json.int 2)], []] "a"
    [("a", Json.int 2)] 2 rfl (by decide)
    ⟨[], List.mem_cons_of_mem _ (List.mem_cons_self _ _), rfl⟩
    (List.mem_cons_self _ _) rfl (by decide)

/-! ### Claim C9 -/

end AnalyzeLogs
